import Mathlib

/-!
Verification of the HTTP-over-tunnel multiplexing proxy of rttys
(src/http.go) against its natural-language specification.

The Go code is shallowly embedded: byte slices become `List Nat`
(one `Nat` per byte, a slice's capacity equal to its length), Go strings
become Lean `String` processed through `String.data` (ASCII inputs, which
is all the address grammar accepts, coincide byte-for-byte with the char
list), machine integers become `Nat`/`Int` with explicit `% 2 ^ w` at the
conversions the source performs, and fallible functions return `Option`.
Go standard-library helpers that the source calls (`net.SplitHostPort`,
`net.ParseIP`, `IP.To4`, `strconv.Atoi`, `url.QueryUnescape`) are embedded
from their stdlib sources; `http.ReadRequest` / `http.Request.Write` (a
full HTTP parser/serializer) are treated at their interface: a parsed
request is its cookies, its Upgrade header and the byte chunks its
serialization writes.
-/

set_option maxRecDepth 8192

/-- Index of the first occurrence of `c` in `l` (Go `bytealg.IndexByteString`),
`none` when absent. -/
def byteIndex : List Char → Char → Option Nat
  | [], _ => none
  | a :: rest, c => if a = c then some 0 else (byteIndex rest c).map (· + 1)

/-- Index of the last occurrence of `c` in `l` (Go `net.last`), `none` when
absent (Go returns -1). -/
def lastIndexOf (l : List Char) (c : Char) : Option Nat :=
  match byteIndex l.reverse c with
  | none => none
  | some j => some (l.length - 1 - j)

/-- Go `net.SplitHostPort`: splits "host:port" / "[host]:port" at the last
colon. All of Go's distinct error returns (missing port, too many colons,
missing or unexpected brackets) are `none` here, since the caller in
src/http.go only tests `err != nil`. -/
def splitHostPort (hostPort : String) : Option (String × String) :=
  let s := hostPort.data
  match lastIndexOf s ':' with
  | none => none
  | some i =>
    let hostjk : Option (List Char × Nat × Nat) :=
      if s.headD ' ' = '[' then
        match byteIndex s ']' with
        | none => none
        | some e =>
          if e + 1 = s.length then none
          else if e + 1 = i then some ((s.drop 1).take (e - 1), 1, e + 1)
          else none
      else
        let host := s.take i
        if host.contains ':' then none else some (host, 0, 0)
    match hostjk with
    | none => none
    | some (host, j, k) =>
      if (s.drop j).contains '[' then none
      else if (s.drop k).contains ']' then none
      else some (⟨host⟩, ⟨s.drop (i + 1)⟩)

/-- Go `net.dtoi` accumulator: reads decimal digits, failing once the value
reaches `big = 0xFFFFFF` or when no digit was read. Returns the value and
the number of characters consumed. -/
def dtoiAux : List Char → Nat → Nat → Option (Nat × Nat)
  | [], n, i => if i = 0 then none else some (n, i)
  | c :: rest, n, i =>
    if '0' ≤ c ∧ c ≤ '9' then
      let n2 := n * 10 + (c.toNat - '0'.toNat)
      if n2 ≥ 0xFFFFFF then none else dtoiAux rest n2 (i + 1)
    else if i = 0 then none else some (n, i)

/-- Go `net.dtoi`. -/
def dtoi (s : List Char) : Option (Nat × Nat) := dtoiAux s 0 0

/-- Whether `c` is a hexadecimal digit, with its value (Go `net.xtoi`'s
per-character cases). -/
def hexVal (c : Char) : Option Nat :=
  if '0' ≤ c ∧ c ≤ '9' then some (c.toNat - '0'.toNat)
  else if 'a' ≤ c ∧ c ≤ 'f' then some (c.toNat - 'a'.toNat + 10)
  else if 'A' ≤ c ∧ c ≤ 'F' then some (c.toNat - 'A'.toNat + 10)
  else none

/-- Go `net.xtoi` accumulator: hexadecimal digits, failing at `big`. -/
def xtoiAux : List Char → Nat → Nat → Option (Nat × Nat)
  | [], n, i => if i = 0 then none else some (n, i)
  | c :: rest, n, i =>
    match hexVal c with
    | some v =>
      let n2 := n * 16 + v
      if n2 ≥ 0xFFFFFF then none else xtoiAux rest n2 (i + 1)
    | none => if i = 0 then none else some (n, i)

/-- Go `net.xtoi`. -/
def xtoi (s : List Char) : Option (Nat × Nat) := xtoiAux s 0 0

/-- The 12-byte front of the 16-byte form of an IPv4 address
(Go `net.v4InV6Prefix`: ten zero bytes then 0xff 0xff). -/
def v4InV6 : List Nat := [0, 0, 0, 0, 0, 0, 0, 0, 0, 0, 0xff, 0xff]

/-- Field loop of Go `net.parseIPv4` (Go 1.17+ behaviour: a field with a
leading zero is rejected): `k` fields remain, `needDot` whether a '.' must
be consumed first, `acc` the fields read so far. -/
def parseV4Fields : Nat → Bool → List Char → List Nat → Option (List Nat)
  | 0, _, s, acc => if s.isEmpty then some acc else none
  | k + 1, needDot, s, acc =>
    if s.isEmpty then none
    else if needDot ∧ s.headD ' ' ≠ '.' then none
    else
      let t := if needDot then s.drop 1 else s
      match dtoi t with
      | none => none
      | some (n, c) =>
        if n > 0xFF then none
        else if c > 1 ∧ t.headD ' ' = '0' then none
        else parseV4Fields k true (t.drop c) (acc ++ [n])

/-- Go `net.parseIPv4`: a dotted-decimal IPv4 literal; the result is the
16-byte form (Go's `IPv4(...)` constructor prepends `v4InV6`). -/
def parseIPv4 (s : List Char) : Option (List Nat) :=
  (parseV4Fields 4 false s []).map (fun p => v4InV6 ++ p)

/-- One-shot transcription of the field loop of Go `net.parseIPv6`.
State: the remaining input, the bytes written so far (`acc`, Go's `ip[:i]`)
and the ellipsis position. Returns the bytes, the ellipsis and whatever
input was left when the loop stopped because 16 bytes were filled. `fuel`
only bounds the iteration count; each iteration consumes at least one
character and writes at least two bytes, so any fuel ≥ 8 is exact. -/
def parseV6Loop : Nat → List Char → List Nat → Option Nat →
    Option (List Nat × Option Nat × List Char)
  | fuel0, s, acc, ell =>
    if acc.length ≥ 16 then some (acc, ell, s)
    else
      match fuel0 with
      | 0 => none
      | fuel + 1 =>
        match xtoi s with
        | none => none
        | some (n, c) =>
          if n > 0xFFFF then none
          else if c < s.length ∧ s.getD c ' ' = '.' then
            if (ell.isNone ∧ acc.length ≠ 12) ∨ acc.length + 4 > 16 then none
            else
              match parseIPv4 s with
              | none => none
              | some ip4 => some (acc ++ ip4.drop 12, ell, [])
          else
            let acc2 := acc ++ [n / 256, n % 256]
            let t := s.drop c
            if t.isEmpty then some (acc2, ell, [])
            else if t.headD ' ' ≠ ':' ∨ t.length = 1 then none
            else
              let t2 := t.drop 1
              if t2.headD ' ' = ':' then
                if ell.isSome then none
                else
                  let t3 := t2.drop 1
                  if t3.isEmpty then some (acc2, some acc2.length, [])
                  else parseV6Loop fuel t3 acc2 (some acc2.length)
              else parseV6Loop fuel t2 acc2 ell

/-- Post-processing of Go `net.parseIPv6` after its field loop: the whole
input must be consumed; fewer than 16 bytes requires an ellipsis and
expands it (shift the bytes after the ellipsis to the end, zero-fill the
middle); a full 16 bytes requires that no ellipsis was seen. -/
def v6Post (r : Option (List Nat × Option Nat × List Char)) :
    Option (List Nat) :=
  match r with
  | none => none
  | some (acc, ell, rest) =>
    if ¬ rest.isEmpty then none
    else if acc.length < 16 then
      match ell with
      | none => none
      | some e =>
        some (acc.take e ++ List.replicate (16 - acc.length) 0 ++ acc.drop e)
    else
      match ell with
      | some _ => none
      | none => some acc

/-- Go `net.parseIPv6`: leading "::" handling (an input that is exactly
"::" is all zeros), the field loop, then the ellipsis expansion. -/
def parseIPv6 (s0 : List Char) : Option (List Nat) :=
  if s0.take 2 = [':', ':'] then
    if (s0.drop 2).isEmpty then some (List.replicate 16 0)
    else v6Post (parseV6Loop 16 (s0.drop 2) [] (some 0))
  else v6Post (parseV6Loop 16 s0 [] none)

/-- Dispatch of Go `net.ParseIP`: scan for the first '.' or ':';
`some true` = '.' first (IPv4), `some false` = ':' first (IPv6). -/
def parseIPDispatch : List Char → Option Bool
  | [] => none
  | c :: rest =>
    if c = '.' then some true
    else if c = ':' then some false
    else parseIPDispatch rest

/-- Go `net.ParseIP` (Go 1.17+ behaviour: an address with a zone suffix
"%zone" is rejected). A successful parse is always 16 bytes. -/
def ParseIP (s : String) : Option (List Nat) :=
  match parseIPDispatch s.data with
  | some true => parseIPv4 s.data
  | some false => if s.data.contains '%' then none else parseIPv6 s.data
  | none => none

/-- Go `net.IP.To4`: the 4-byte form of an IPv4 or IPv4-mapped address,
`none` otherwise. -/
def To4 (ip : List Nat) : Option (List Nat) :=
  if ip.length = 4 then some ip
  else if ip.length = 16 ∧ ip.take 12 = v4InV6 then some (ip.drop 12)
  else none

/-- Value returned by Go `strconv.Atoi` with the error discarded, as
src/http.go does (`port, _ := strconv.Atoi(ports)`): 0 on a syntax error,
the value clamped to int64 on a range error. -/
def atoiVal (s : String) : Int :=
  match s.data with
  | [] => 0
  | c :: rest =>
    let neg : Bool := c = '-'
    let digits := if c = '-' ∨ c = '+' then rest else c :: rest
    if digits.isEmpty ∨ ¬ digits.all (fun d => '0' ≤ d ∧ d ≤ '9') then 0
    else
      let n : Nat := digits.foldl (fun a d => a * 10 + (d.toNat - '0'.toNat)) 0
      let v : Int := if neg then -(n : Int) else (n : Int)
      if v > 2 ^ 63 - 1 then 2 ^ 63 - 1
      else if v < -(2 ^ 63) then -(2 ^ 63)
      else v

/-- Go's conversion `uint16(port)` of an `int`: the value modulo 2^16
(Lean's `Int.emod` agrees with two's-complement truncation). -/
def uint16OfInt (v : Int) : Nat := (v % 65536).toNat

/-- The host half of src/http.go lines 290-294: `ips` is the split's host,
or the whole address when `net.SplitHostPort` errors. -/
def hostOf (addr : String) : String :=
  match splitHostPort addr with
  | some (h, _) => h
  | none => addr

/-- The port half of src/http.go lines 290-294: `ports` is the split's
port, or "80" when `net.SplitHostPort` errors. -/
def portStrOf (addr : String) : String :=
  match splitHostPort addr with
  | some (_, p) => p
  | none => "80"

/-- src/http.go `httpProxyVaildAddr` (lines 289-309): split host and port
(falling back to the whole string and port "80" when the split errors),
require the host to parse as an IP convertible `To4`, and return the 4
address bytes with the port (`Atoi` error ignored, value truncated to
uint16). -/
def httpProxyVaildAddr (addr : String) : Option (List Nat × Nat) :=
  match ParseIP (hostOf addr) with
  | none => none
  | some ip =>
    match To4 ip with
    | none => none
    | some ip4 => some (ip4, uint16OfInt (atoiVal (portStrOf addr)))

/-- src/http.go `genDestAddr` (lines 55-67): 6 bytes, `copy`ing in the 4
address bytes and writing the port big-endian into bytes 4 and 5
(`binary.BigEndian.PutUint16`). On a validation error Go returns nil,
embedded as `[]`. -/
def genDestAddr (addr : String) : List Nat :=
  match httpProxyVaildAddr addr with
  | none => []
  | some (destIP, destPort) =>
    (List.range 4).map (fun i => destIP.getD i 0) ++
      [destPort / 256 % 256, destPort % 256]

/-- src/http.go `tcpAddr2Bytes` (lines 69-77): 18 zero bytes, the port
written big-endian into bytes 0 and 1 after conversion to uint16, then
`copy(b[2:], addr.IP)` of the remote address's IP bytes. Go's accept path
delivers that IP either as 16 bytes (an AF_INET6 listener,
`sockaddrToTCP` on a `SockaddrInet6`) or as 4 bytes (an AF_INET listener,
e.g. a non-wildcard IPv4 bind address, `sockaddrToTCP` on a
`SockaddrInet4` building `TCPAddr{IP: sa.Addr[0:]}`); a shorter IP leaves
the remaining bytes of `b` zero. -/
def tcpAddr2Bytes (port : Nat) (ip : List Nat) : List Nat :=
  [port % 65536 / 256, port % 256] ++ (List.range 16).map (fun i => ip.getD i 0)

/-- Go `url.QueryUnescape` on the character list: percent-decoding with '+'
becoming a space; a '%' not followed by two hex digits is an error. -/
def unescapeQuery : List Char → Option (List Char)
  | [] => some []
  | '%' :: rest =>
    match rest with
    | a :: b :: rest2 =>
      match hexVal a, hexVal b with
      | some va, some vb => (unescapeQuery rest2).map (Char.ofNat (va * 16 + vb) :: ·)
      | _, _ => none
    | _ => none
  | '+' :: rest => (unescapeQuery rest).map (' ' :: ·)
  | c :: rest => (unescapeQuery rest).map (c :: ·)

/-- Value of Go `url.QueryUnescape` as src/http.go uses it
(`hostHeaderRewrite, _ = url.QueryUnescape(...)`): the decoded string, or
"" when QueryUnescape errors (its string return on error). -/
def queryUnescape (s : String) : String :=
  match unescapeQuery s.data with
  | some l => ⟨l⟩
  | none => ""

/-- The `device` struct of the broker as src/http.go reads it: its id
(`dev.id`) and its negotiated protocol version (`dev.proto`). -/
structure device where
  id : String
  proto : Nat
deriving DecidableEq

/-- Interface view of one HTTP request as `http.ReadRequest` returns it and
`http.Request.Write` serializes it: its cookie header pairs (in order), the
value of `Header.Get "Upgrade"` ("" when absent), and the byte chunks its
serialization (after the Host rewrite of src/http.go lines 110 and 183)
writes to the destination writer. -/
structure ParsedRequest where
  cookies : List (String × String)
  upgrade : String
  serialized : List (List Nat)
deriving DecidableEq

/-- Go `req.Cookie(name)` (src/http.go lines 124, 135, 142, 148): the first
cookie named `name`, or `none` (Go `http.ErrNoCookie`). -/
def reqCookie (req : ParsedRequest) (name : String) : Option String :=
  (req.cookies.find? (fun p => p.1 = name)).map (fun p => p.2)

/-- One message pushed onto the broker's per-device sink `brk.httpReq`
(src/http.go lines 104 and 200), kept in structured form: the device id it
is tagged with, the optional scheme-flag byte, and the three append-ed
byte runs. `Frame.bytes` below is the byte string Go actually sends. -/
structure Frame where
  dev : String
  flag : Option Nat
  src : List Nat
  dst : List Nat
  payload : List Nat
deriving DecidableEq

/-- The byte string of a frame as Go builds it by successive `append`s:
optional flag byte, then source address, destination address, payload. -/
def Frame.bytes (f : Frame) : List Nat :=
  (match f.flag with
   | some b => [b]
   | none => []) ++ f.src ++ f.dst ++ f.payload

/-- src/http.go `HttpProxyWriter` (lines 79-86); the `br *broker` field is
the sink the frames go to and carries no data of its own. -/
structure HttpProxyWriter where
  destAddr : List Nat
  srcAddr : List Nat
  hostHeaderRewrite : String
  dev : device
  https : Bool
deriving DecidableEq

/-- src/http.go `HttpProxyWriter.Write` (lines 88-107): the frame pushed for
one chunk `p` — a scheme-flag byte (1 for https, 0 for http) only when
`dev.proto > 3`, then `srcAddr`, `destAddr` and `p`, tagged with `dev.id`. -/
def HttpProxyWriter.Write (rw : HttpProxyWriter) (p : List Nat) : Frame :=
  { dev := rw.dev.id
    flag := if rw.dev.proto > 3 then some (if rw.https then 1 else 0) else none
    src := rw.srcAddr
    dst := rw.destAddr
    payload := p }

/-- src/http.go `HttpProxyWriter.WriteRequest` (lines 109-112): rewrite the
Host header and serialize the request into the writer; each chunk the
serializer writes becomes one frame. -/
def HttpProxyWriter.WriteRequest (rw : HttpProxyWriter) (req : ParsedRequest) :
    List Frame :=
  req.serialized.map rw.Write

/-- src/http.go lines 141-145: `https` is true exactly when the
rtty-http-proto cookie is present with value "https". -/
def reqHttps (req : ParsedRequest) : Bool :=
  reqCookie req "rtty-http-proto" = some "https"

/-- src/http.go lines 147-151: the destination override from the
rtty-http-destaddr cookie, percent-decoded with the error ignored;
"localhost" when the cookie is absent. -/
def reqHostRewrite (req : ParsedRequest) : String :=
  match reqCookie req "rtty-http-destaddr" with
  | some v => queryUnescape v
  | none => "localhost"

/-- Everything `doHttpProxy` reads from one accepted connection: the first
parsed request (`none` = `http.ReadRequest` failed), the further pipelined
parsed requests read in the non-upgrade loop until a parse/read error, the
raw chunks read in the upgrade loop until a read error/EOF, and the remote
TCP endpoint (whose IP Go's accept path stores in 16-byte form). -/
structure ProxyConnInput where
  firstReq : Option ParsedRequest
  moreReqs : List ParsedRequest
  rawChunks : List (List Nat)
  remotePort : Nat
  remoteIP : List Nat
deriving DecidableEq

/-- Observable outcome of one `doHttpProxy` run: the frames pushed to the
per-device sink in order, whether the connection was stored into the
Endpoint Registry `httpProxyCons` under (devid, string(srcAddr))
(lines 156-159), whether the session watcher goroutine was started
(lines 163-176), and whether the normal-exit channel `exit` was closed
(lines 192, 206). The deferred `c.Close()` runs on every path. -/
structure ProxyRun where
  frames : List Frame
  registered : Bool
  watcherSpawned : Bool
  exitClosed : Bool
deriving DecidableEq

/-- src/http.go `doHttpProxy` (lines 114-213), embedded step for step:
read the first request; read the rtty-http-devid cookie; look the device
up; read the rtty-http-sid cookie; compute `https`, the destination
override, `destAddr` and `srcAddr`; store the connection in the Endpoint
Registry; if the session id is unknown return (the entry stays, no watcher
runs); otherwise spawn the watcher, forward the first request through the
writer, then either relay raw chunks (Upgrade: websocket — each chunk
framed as srcAddr ++ destAddr ++ chunk with no scheme flag, line 196-200)
or keep parsing pipelined requests through the writer, closing `exit` when
the read/parse loop ends. `devices` is the broker's device table
`brk.devices`, `sessions` the key set of `httpProxySessions`. -/
def doHttpProxy (devices : List (String × device)) (sessions : List String)
    (inp : ProxyConnInput) : ProxyRun :=
  match inp.firstReq with
  | none => ⟨[], false, false, false⟩
  | some req =>
    match reqCookie req "rtty-http-devid" with
    | none => ⟨[], false, false, false⟩
    | some devid =>
      match (devices.find? (fun p => p.1 = devid)).map (fun p => p.2) with
      | none => ⟨[], false, false, false⟩
      | some dev =>
        match reqCookie req "rtty-http-sid" with
        | none => ⟨[], false, false, false⟩
        | some sid =>
          let destAddr := genDestAddr (reqHostRewrite req)
          let srcAddr := tcpAddr2Bytes inp.remotePort inp.remoteIP
          if sid ∈ sessions then
            let rw : HttpProxyWriter :=
              ⟨destAddr, srcAddr, reqHostRewrite req, dev, reqHttps req⟩
            let firstFrames := rw.WriteRequest req
            if req.upgrade = "websocket" then
              ⟨firstFrames ++
                 inp.rawChunks.map (fun b => ⟨devid, none, srcAddr, destAddr, b⟩),
               true, true, true⟩
            else
              ⟨firstFrames ++ inp.moreReqs.flatMap rw.WriteRequest,
               true, true, true⟩
          else
            ⟨[], true, false, false⟩

/-- Which event ends the watcher goroutine's `select` (src/http.go lines
165-169): the session's cancellation channel was closed first, or the
handler's normal-exit channel was. This is the race's nondeterminism. -/
inductive WatcherWake
  | cancelFired
  | normalExit
deriving DecidableEq

/-- The watcher goroutine (src/http.go lines 164-176): on session
cancellation it closes the connection, on normal exit it does not; on
either path it then deletes the registry entry exactly once (the device
sub-table exists because the handler stored into it before spawning the
watcher). Returns (number of registry deletions, whether the watcher
closed the connection). -/
def watcherRun : WatcherWake → Nat × Bool
  | .cancelFired => (1, true)
  | .normalExit => (1, false)

/-- Total number of Endpoint Registry deletions for one connection: the
deletion sits only in the watcher goroutine, so a run that never spawned
the watcher removes nothing. -/
def connRemovals (run : ProxyRun) (w : WatcherWake) : Nat :=
  if run.watcherSpawned then (watcherRun w).1 else 0

/-- Action the inbound-frame handler takes on the looked-up connection;
`panic` models the out-of-range slice `data[:18]` (src/http.go line 40)
when the delivered data is shorter than 18 bytes. -/
inductive RespAction
  | panic
  | noop
  | closeConn (c : Nat)
  | writeConn (c : Nat) (payload : List Nat)
deriving DecidableEq

/-- The Endpoint Registry `httpProxyCons` as `handleHttpProxyResp` reads it:
device id to a sub-table from `string(srcAddr)` (the 18 address bytes) to a
connection, connections represented by an opaque handle. -/
abbrev ConsRegistry := List (String × List (List Nat × Nat))

/-- The two nested `sync.Map` lookups of src/http.go lines 43-44: the
device's sub-table, then the connection under the 18 address bytes. -/
def consLookup (cons : ConsRegistry) (devID : String) (addr : List Nat) :
    Option Nat :=
  match (cons.find? (fun p => p.1 = devID)).map (fun p => p.2) with
  | none => none
  | some m => (m.find? (fun p => p.1 = addr)).map (fun p => p.2)

/-- src/http.go `handleHttpProxyResp` (lines 38-53): split the delivered
data into the 18-byte source address (`addr := data[:18]`, a panic when
fewer than 18 bytes were delivered) and the payload (`data[18:]`); look
the connection up by device id then address; absent at either level is a
silent no-op; an empty payload closes the connection, otherwise the
payload is written to it verbatim. -/
def handleHttpProxyResp (cons : ConsRegistry) (devID : String)
    (data : List Nat) : RespAction :=
  if data.length < 18 then .panic
  else
    match consLookup cons devID (data.take 18) with
    | none => .noop
    | some c =>
      if (data.drop 18).isEmpty then .closeConn c
      else .writeConn c (data.drop 18)

/-- One observable step the redirect handler takes on the Session Registry
`httpProxySessions`, in program order: firing a session's cancellation
channel (`close(v)`), deleting its registry entry, allocating the new
session (id and fresh channel), and storing it. -/
inductive SessionEvent
  | fired (sid : String)
  | removed (sid : String)
  | created (sid : String)
  | stored (sid : String)
deriving DecidableEq

/-- Outcome of one `httpProxyRedirect` call: the HTTP status, the Location
header of a 302, the cookies set (name, value in order), the Session
Registry key set after the call, and the session events in program order. -/
structure RedirectResult where
  status : Nat
  location : Option String
  cookies : List (String × String)
  sessions : List String
  events : List SessionEvent
deriving DecidableEq

/-- The configuration fields `httpProxyRedirect` reads. -/
structure RedirConfig where
  HttpProxyRedirURL : String
  HttpProxyProtocol : String
  HttpProxyPort : Nat
deriving DecidableEq

/-- src/http.go lines 362-368: if the caller presented an rtty-http-sid
cookie naming a live session, close that session's channel (the `fired`
event) and delete it from `httpProxySessions` (the `removed` event).
Returns the registry key set afterwards and the events in program order. -/
def sessionInvalidate (sessions : List String) (sidCookie : Option String) :
    List String × List SessionEvent :=
  match sidCookie with
  | some sid =>
    if sid ∈ sessions then
      (sessions.filter (fun x => x ≠ sid),
       [SessionEvent.fired sid, SessionEvent.removed sid])
    else (sessions, [])
  | none => (sessions, [])

/-- src/http.go `httpProxyRedirect` (lines 311-380), embedded step for
step: validate the destination address (400), the target path (400, with
`url.Parse`'s result on the raw path passed in as `parsedPath` =
(path.Path, path.RawQuery)), the device id (404); compute the redirect
location (configured override, else scheme://host with the proxy port
appended unless it is 80, then the path, a cache-busting `?_=now` and the
original query); if the caller's rtty-http-sid cookie names a live
session, close its channel and delete it; mint and store the new session
(`utils.GenUniqueID` is outside src/ — the spec assumes unique-id
generation returns collision-free strings, so the fresh id is the
parameter `newSid`); set the four cookies and redirect (302). -/
def httpProxyRedirect (cfg : RedirConfig) (devices : List (String × device))
    (devid proto addr : String) (parsedPath : Option (String × String))
    (requestHost : String) (now : Int) (sidCookie : Option String)
    (newSid : String) (sessions : List String) : RedirectResult :=
  if (httpProxyVaildAddr addr).isNone then ⟨400, none, [], sessions, []⟩
  else
    match parsedPath with
    | none => ⟨400, none, [], sessions, []⟩
    | some (pathPath, pathRawQuery) =>
      if (devices.find? (fun p => p.1 = devid)).isNone then
        ⟨404, none, [], sessions, []⟩
      else
        let location :=
          if cfg.HttpProxyRedirURL ≠ "" then cfg.HttpProxyRedirURL
          else
            let host := match splitHostPort requestHost with
              | some (h, _) => h
              | none => requestHost
            let base :=
              if cfg.HttpProxyProtocol ≠ "" then
                cfg.HttpProxyProtocol ++ "://" ++ host
              else "http://" ++ host
            if cfg.HttpProxyPort ≠ 80 then
              base ++ ":" ++ toString cfg.HttpProxyPort
            else base
        let location := location ++ pathPath ++ "?_=" ++ toString now ++
          (if pathRawQuery ≠ "" then "&" ++ pathRawQuery else "")
        let invalidate := sessionInvalidate sessions sidCookie
        ⟨302, some location,
         [("rtty-http-sid", newSid), ("rtty-http-devid", devid),
          ("rtty-http-proto", proto), ("rtty-http-destaddr", addr)],
         newSid :: invalidate.1,
         invalidate.2 ++ [SessionEvent.created newSid, SessionEvent.stored newSid]⟩

/-- Modelled from the spec (amended by `doHttpProxy`'s actual behaviour):
the outbound frames one proxy connection pushes, in order — every chunk of
the first request's serialization through the writer (scheme flag exactly
when the device's protocol version is above 3), then either the raw-relay
frames (source address, destination address, chunk — no scheme flag) in
upgrade mode, or the writer frames of the further pipelined requests. -/
def specOutboundFrames (inp : ProxyConnInput) (req : ParsedRequest)
    (devid : String) (dev : device) : List Frame :=
  let srcAddr := tcpAddr2Bytes inp.remotePort inp.remoteIP
  let destAddr := genDestAddr (reqHostRewrite req)
  let rw : HttpProxyWriter :=
    ⟨destAddr, srcAddr, reqHostRewrite req, dev, reqHttps req⟩
  rw.WriteRequest req ++
    (if req.upgrade = "websocket" then
      inp.rawChunks.map (fun b => ⟨devid, none, srcAddr, destAddr, b⟩)
     else inp.moreReqs.flatMap rw.WriteRequest)

/-- A placeholder frame for indexing into frame lists. -/
def frameDflt : Frame := ⟨"", none, [], [], []⟩

/-- Concrete device used by the closed test runs: protocol version 4
(scheme flag supported). -/
def devW : device := ⟨"dev1", 4⟩

/-- Concrete remote IP (16-byte form of 10.0.0.9). -/
def ipW : List Nat := [0, 0, 0, 0, 0, 0, 0, 0, 0, 0, 255, 255, 10, 0, 0, 9]

/-- Cookie set naming a known device, a session and a valid destination. -/
def cookiesW : List (String × String) :=
  [("rtty-http-devid", "dev1"), ("rtty-http-sid", "s1"),
   ("rtty-http-destaddr", "10.0.0.2:8080")]

/-- A plain (non-upgrade) first request with a one-chunk serialization. -/
def reqPlainW : ParsedRequest := ⟨cookiesW, "", [[71]]⟩

/-- A websocket-upgrade first request with a one-chunk serialization. -/
def reqWsW : ParsedRequest := ⟨cookiesW, "websocket", [[71]]⟩

/-- A first request whose rtty-http-destaddr cookie is absent, so the
destination defaults to "localhost", which fails IPv4 validation. -/
def reqNoDestW : ParsedRequest :=
  ⟨[("rtty-http-devid", "dev1"), ("rtty-http-sid", "s1")], "", [[71]]⟩

/-- Connection input for the unknown-session run: valid cookies, but the
session id will not be in the registry. -/
def inpC1 : ProxyConnInput := ⟨some reqPlainW, [], [], 4660, ipW⟩

/-- The unknown-session run: device known, session "s1" not registered. -/
def runC1 : ProxyRun := doHttpProxy [("dev1", devW)] [] inpC1

/-- Connection input for the websocket run: one raw chunk [65] then EOF. -/
def inpWsW : ProxyConnInput := ⟨some reqWsW, [], [[65]], 4660, ipW⟩

/-- The websocket run with device and session known. -/
def runWsW : ProxyRun := doHttpProxy [("dev1", devW)] ["s1"] inpWsW

/-- Connection input whose destination cookie is absent. -/
def inpNoDestW : ProxyConnInput := ⟨some reqNoDestW, [], [], 4660, ipW⟩

/-- The run with an invalid (defaulted) destination and a live session. -/
def runNoDestW : ProxyRun := doHttpProxy [("dev1", devW)] ["s1"] inpNoDestW

/-- An 18-byte source address key for the dispatch tests. -/
def addrW : List Nat :=
  [18, 52, 0, 0, 0, 0, 0, 0, 0, 0, 0, 0, 255, 255, 10, 0, 0, 9]

/-- A one-device, one-connection Endpoint Registry for the dispatch tests. -/
def consW : ConsRegistry := [("dev1", [(addrW, 7)])]

/-- Redirect configuration for the closed redirect runs: no override URL,
no protocol override, proxy port 8443. -/
def cfgW : RedirConfig := ⟨"", "", 8443⟩

/-- First redirect: no session cookie presented, mints session "s1". -/
def redirW1 : RedirectResult :=
  httpProxyRedirect cfgW [("dev1", devW)] "dev1" "http" "10.0.0.2:8080"
    (some ("/x", "")) "broker.example:5913" 100 none "s1" []

/-- Second redirect: presents the cookie "s1" minted by the first call,
mints session "s2". -/
def redirW2 : RedirectResult :=
  httpProxyRedirect cfgW [("dev1", devW)] "dev1" "http" "10.0.0.2:8080"
    (some ("/x", "")) "broker.example:5913" 101 (some "s1") "s2"
    redirW1.sessions

/-- Reading a list back out of `List.getD` over its index range. -/
theorem range_map_getD {α : Type} (l : List α) (d : α) :
    (List.range l.length).map (fun i => l.getD i d) = l := by
  induction l with
  | nil => rfl
  | cons a t ih =>
    rw [List.length_cons, List.range_succ_eq_map, List.map_cons, List.map_map]
    have h2 : ((fun i => (a :: t).getD i d) ∘ Nat.succ) = fun i => t.getD i d := by
      funext i
      simp [List.getD_cons_succ]
    rw [h2, ih]
    simp [List.getD_cons_zero]

/-- `To4` only succeeds with a 4-byte result. -/
theorem To4_length {ip a : List Nat} (h : To4 ip = some a) : a.length = 4 := by
  unfold To4 at h
  split at h
  · cases h
    omega
  · split at h
    · cases h
      rename_i h16
      simp [h16.1]
    · cases h

/-- The uint16 conversion is bounded by 2^16. -/
theorem uint16OfInt_lt (v : Int) : uint16OfInt v < 65536 := by
  unfold uint16OfInt
  have h1 : 0 ≤ v % 65536 := Int.emod_nonneg v (by decide)
  have h2 : v % 65536 < 65536 := Int.emod_lt_of_pos v (by decide)
  omega

/-- The IPv4 field loop adds exactly one byte per remaining field. -/
theorem parseV4Fields_length :
    ∀ (k : Nat) (nd : Bool) (s : List Char) (acc r : List Nat),
      parseV4Fields k nd s acc = some r → r.length = acc.length + k := by
  intro k
  induction k with
  | zero =>
    intro nd s acc r h
    unfold parseV4Fields at h
    split at h
    · cases h
      simp
    · cases h
  | succ k ih =>
    intro nd s acc r h
    unfold parseV4Fields at h
    split at h
    · cases h
    · split at h
      · cases h
      · simp only [] at h
        set t : List Char := if nd = true then s.drop 1 else s with ht
        cases hd : dtoi t with
        | none => rw [hd] at h; cases h
        | some p =>
          obtain ⟨n, c⟩ := p
          rw [hd] at h
          simp only [] at h
          split at h
          · cases h
          · split at h
            · cases h
            · have h2 := ih true _ (acc ++ [n]) r h
              simp at h2
              omega

/-- A successful `parseIPv4` result is 16 bytes. -/
theorem parseIPv4_length {s : List Char} {v : List Nat}
    (h : parseIPv4 s = some v) : v.length = 16 := by
  unfold parseIPv4 at h
  cases hp : parseV4Fields 4 false s [] with
  | none => rw [hp] at h; cases h
  | some r =>
    rw [hp] at h
    cases h
    have := parseV4Fields_length 4 false s [] r hp
    simp [v4InV6]
    simp at this
    omega

/-- Invariant of the IPv6 field loop: the byte count stays even and at most
16, and the recorded ellipsis position never exceeds it. -/
theorem parseV6Loop_invariant :
    ∀ (fuel : Nat) (s : List Char) (acc : List Nat) (ell : Option Nat)
      (acc2 : List Nat) (ell2 : Option Nat) (rest : List Char),
      parseV6Loop fuel s acc ell = some (acc2, ell2, rest) →
      acc.length % 2 = 0 → acc.length ≤ 16 →
      (∀ e, ell = some e → e ≤ acc.length) →
      acc2.length % 2 = 0 ∧ acc2.length ≤ 16 ∧
        (∀ e, ell2 = some e → e ≤ acc2.length) := by
  intro fuel
  induction fuel with
  | zero =>
    intro s acc ell acc2 ell2 rest h he hle hell
    unfold parseV6Loop at h
    split at h
    · cases h
      exact ⟨he, hle, hell⟩
    · cases h
  | succ fuel ih =>
    intro s acc ell acc2 ell2 rest h he hle hell
    unfold parseV6Loop at h
    split at h
    · cases h
      exact ⟨he, hle, hell⟩
    · rename_i hlt
      cases hx : xtoi s with
      | none => rw [hx] at h; cases h
      | some p =>
        obtain ⟨n, c⟩ := p
        rw [hx] at h
        simp only [] at h
        split at h
        · cases h
        · split at h
          · split at h
            · cases h
            · rename_i hguard
              cases hp4 : parseIPv4 s with
              | none => rw [hp4] at h; cases h
              | some ip4 =>
                rw [hp4] at h
                cases h
                have h16 := parseIPv4_length hp4
                push_neg at hguard
                refine ⟨?_, ?_, ?_⟩
                · simp [h16]
                  omega
                · simp [h16]
                  omega
                · intro e hee
                  have := hell e hee
                  simp
                  omega
          · split at h
            · cases h
              refine ⟨?_, ?_, ?_⟩
              · simp
                omega
              · simp
                omega
              · intro e hee
                have := hell e hee
                simp
                omega
            · split at h
              · cases h
              · split at h
                · split at h
                  · cases h
                  · split at h
                    · cases h
                      refine ⟨?_, ?_, ?_⟩
                      · simp
                        omega
                      · simp
                        omega
                      · intro e hee
                        cases hee
                        simp
                    · have h2 := ih _ _ _ _ _ _ h (by simp; omega)
                        (by simp; omega)
                        (by intro e hee; cases hee; simp)
                      exact h2
                · have h2 := ih _ _ _ _ _ _ h (by simp; omega)
                    (by simp; omega)
                    (by intro e hee; have := hell e hee; simp; omega)
                  exact h2

/-- Under the loop invariant, the IPv6 post-processing always yields 16
bytes. -/
theorem v6Post_length {acc : List Nat} {ell : Option Nat} {rest : List Char}
    {v : List Nat} (h : v6Post (some (acc, ell, rest)) = some v)
    (he : acc.length % 2 = 0) (hle : acc.length ≤ 16)
    (hell : ∀ e, ell = some e → e ≤ acc.length) : v.length = 16 := by
  unfold v6Post at h
  simp only [] at h
  by_cases hr : rest.isEmpty
  · rw [if_neg (by simp [hr])] at h
    by_cases hlt : acc.length < 16
    · rw [if_pos hlt] at h
      cases ell with
      | none => cases h
      | some e =>
        cases h
        have hee := hell e rfl
        simp
        omega
    · rw [if_neg hlt] at h
      cases ell with
      | some e => cases h
      | none =>
        cases h
        omega
  · rw [if_pos (by simp [hr])] at h
    cases h

/-- A successful `parseIPv6` result is 16 bytes. -/
theorem parseIPv6_length {s0 : List Char} {v : List Nat}
    (h : parseIPv6 s0 = some v) : v.length = 16 := by
  unfold parseIPv6 at h
  split at h
  · split at h
    · cases h
      simp
    · cases hl : parseV6Loop 16 (s0.drop 2) [] (some 0) with
      | none => rw [hl] at h; cases h
      | some r =>
        obtain ⟨acc, ell, rest⟩ := r
        rw [hl] at h
        have hi := parseV6Loop_invariant 16 _ _ _ _ _ _ hl (by simp) (by simp)
          (by intro e hee; cases hee; simp)
        exact v6Post_length h hi.1 hi.2.1 hi.2.2
  · cases hl : parseV6Loop 16 s0 [] none with
    | none => rw [hl] at h; cases h
    | some r =>
      obtain ⟨acc, ell, rest⟩ := r
      rw [hl] at h
      have hi := parseV6Loop_invariant 16 _ _ _ _ _ _ hl (by simp) (by simp)
        (by intro e hee; cases hee)
      exact v6Post_length h hi.1 hi.2.1 hi.2.2

/-- A successful `ParseIP` result is always 16 bytes (Go's `parseIPv4`
already returns the 16-byte mapped form). -/
theorem ParseIP_length {s : String} {v : List Nat}
    (h : ParseIP s = some v) : v.length = 16 := by
  unfold ParseIP at h
  cases hd : parseIPDispatch s.data with
  | none => rw [hd] at h; cases h
  | some b =>
    rw [hd] at h
    cases b with
    | true =>
      simp only [] at h
      exact parseIPv4_length h
    | false =>
      simp only [] at h
      split at h
      · cases h
      · exact parseIPv6_length h

/-- `byteIndex` finds nothing exactly when the character is absent. -/
theorem byteIndex_eq_none {l : List Char} {c : Char} (h : c ∉ l) :
    byteIndex l c = none := by
  induction l with
  | nil => rfl
  | cons a t ih =>
    simp only [List.mem_cons, not_or] at h
    unfold byteIndex
    rw [if_neg (fun he => h.1 he.symm), ih h.2]
    rfl

/-- A string without a colon fails `net.SplitHostPort` (missing port). -/
theorem splitHostPort_no_colon {s : String} (h : ':' ∉ s.data) :
    splitHostPort s = none := by
  have hl : lastIndexOf s.data ':' = none := by
    unfold lastIndexOf
    rw [byteIndex_eq_none (by simpa using h)]
  unfold splitHostPort
  simp only [hl]

/-- Reading a short list back out of `List.getD` over a longer index
range: the tail of the range reads the fallback, as Go's `copy` into a
zeroed buffer leaves the remaining bytes zero. -/
theorem range_map_getD_pad {α : Type} (l : List α) (d : α) :
    ∀ n, l.length ≤ n →
      (List.range n).map (fun i => l.getD i d) =
        l ++ List.replicate (n - l.length) d := by
  induction l with
  | nil =>
    intro n _
    have hc : (fun i => ([] : List α).getD i d) = fun _ => d := by
      funext i
      cases i <;> rfl
    rw [hc, List.map_const', List.length_range, List.nil_append,
      List.length_nil, Nat.sub_zero]
  | cons a t ih =>
    intro n hn
    cases n with
    | zero => simp at hn
    | succ m =>
      rw [List.range_succ_eq_map, List.map_cons, List.map_map]
      have h2 : ((fun i => (a :: t).getD i d) ∘ Nat.succ) =
          fun i => t.getD i d := by
        funext i
        simp [List.getD_cons_succ]
      rw [h2, ih m (by simpa using hn)]
      simp [List.getD_cons_zero]

/-- C7 counterexample: for the browser-side endpoint 127.0.0.1:8080
accepted through an AF_INET listener, Go's `sockaddrToTCP` delivers the
remote IP as the 4 bytes 127 0 0 1, and the computed Source Identifier is
the port followed by those 4 bytes and 12 zero bytes — not the port
followed by the 16-byte representation of 127.0.0.1 (which is the
v4-mapped form, with ff ff at bytes 10 and 11). -/
theorem tcpAddr2Bytes_ipv4_not_16byte_form :
    tcpAddr2Bytes 8080 [127, 0, 0, 1] =
      [8080 / 256, 8080 % 256] ++ [127, 0, 0, 1] ++ List.replicate 12 0 ∧
    tcpAddr2Bytes 8080 [127, 0, 0, 1] ≠
      [8080 / 256, 8080 % 256] ++ (v4InV6 ++ [127, 0, 0, 1]) ∧
    (tcpAddr2Bytes 8080 [127, 0, 0, 1]).length = 18 :=
  ⟨by decide, by decide, by decide⟩

/-- C7 amended: for every browser-side TCP endpoint (port below 2^16 and
the remote IP delivered by Go's accept path as either 4 or 16 bytes), the
computed Source Identifier is exactly 18 bytes: the 2-byte big-endian port
followed by the IP bytes zero-padded on the right to 16. When the IP
arrives in its 16-byte form this is the claimed port ++ 16-byte
representation; when a 4-byte IPv4 arrives it is port ++ the 4 address
bytes ++ 12 zero bytes, not the 16-byte IPv4 form. -/
theorem tcpAddr2Bytes_layout (port : Nat) (ip : List Nat)
    (hport : port < 65536) (hip : ip.length = 4 ∨ ip.length = 16) :
    (tcpAddr2Bytes port ip).length = 18 ∧
    tcpAddr2Bytes port ip =
      [port / 256, port % 256] ++ ip ++ List.replicate (16 - ip.length) 0 ∧
    (ip.length = 16 →
      tcpAddr2Bytes port ip = [port / 256, port % 256] ++ ip) := by
  have hle : ip.length ≤ 16 := by rcases hip with h | h <;> omega
  have hmap : (List.range 16).map (fun i => ip.getD i 0) =
      ip ++ List.replicate (16 - ip.length) 0 := range_map_getD_pad ip 0 16 hle
  refine ⟨?_, ?_, ?_⟩
  · unfold tcpAddr2Bytes
    rw [hmap]
    simp
    omega
  · unfold tcpAddr2Bytes
    rw [Nat.mod_eq_of_lt hport, hmap, List.append_assoc]
  · intro h16
    unfold tcpAddr2Bytes
    rw [Nat.mod_eq_of_lt hport, hmap, h16]
    simp

/-- Witness for the C7 amended theorem at port 8080 with a 16-byte IP. -/
theorem tcpAddr2Bytes_layout_witness :
    (tcpAddr2Bytes 8080 ipW).length = 18 ∧
    tcpAddr2Bytes 8080 ipW =
      [8080 / 256, 8080 % 256] ++ ipW ++ List.replicate (16 - ipW.length) 0 ∧
    (ipW.length = 16 →
      tcpAddr2Bytes 8080 ipW = [8080 / 256, 8080 % 256] ++ ipW) :=
  tcpAddr2Bytes_layout 8080 ipW (by decide) (by decide)

/-- C8: for every delivered frame of at least 18 bytes, dispatch is a
silent no-op when no registry entry exists for (device id, source
address); when an entry exists, an empty payload closes the connection and
a non-empty payload is written to it verbatim. -/
theorem handleHttpProxyResp_spec (cons : ConsRegistry) (devID : String)
    (data : List Nat) (h : 18 ≤ data.length) :
    (consLookup cons devID (data.take 18) = none →
      handleHttpProxyResp cons devID data = RespAction.noop) ∧
    (∀ c, consLookup cons devID (data.take 18) = some c →
      (data.drop 18 = [] →
        handleHttpProxyResp cons devID data = RespAction.closeConn c) ∧
      (data.drop 18 ≠ [] →
        handleHttpProxyResp cons devID data =
          RespAction.writeConn c (data.drop 18))) := by
  have hni : ¬ data.length < 18 := by omega
  unfold handleHttpProxyResp
  rw [if_neg hni]
  refine ⟨fun hl => by simp only [hl], fun c hl => ⟨fun hp => ?_, fun hp => ?_⟩⟩
  · simp only [hl]
    rw [if_pos (by simp [hp])]
  · simp only [hl]
    rw [if_neg (by simp [List.isEmpty_iff, hp])]

/-- Witness for C8: a present entry and non-empty payload is written
verbatim. -/
theorem handleHttpProxyResp_spec_witness :
    handleHttpProxyResp consW "dev1" (addrW ++ [9]) =
      RespAction.writeConn 7 [9] :=
  ((handleHttpProxyResp_spec consW "dev1" (addrW ++ [9]) (by decide)).2 7
      (by decide)).2 (by decide)

/-- C10: the inbound-frame handler slices `data[:18]` unconditionally, so
it panics on every delivered frame shorter than 18 bytes and only then is
total: with at least 18 bytes it never panics. -/
theorem handleHttpProxyResp_requires_18_bytes (cons : ConsRegistry)
    (devID : String) (data : List Nat) :
    (data.length < 18 →
      handleHttpProxyResp cons devID data = RespAction.panic) ∧
    (18 ≤ data.length →
      handleHttpProxyResp cons devID data ≠ RespAction.panic) := by
  constructor
  · intro h
    unfold handleHttpProxyResp
    rw [if_pos h]
  · intro h
    unfold handleHttpProxyResp
    rw [if_neg (by omega)]
    cases hl : consLookup cons devID (data.take 18) with
    | none => simp
    | some c =>
      simp only []
      split <;> simp

/-- Witness for C10: a 3-byte frame panics. -/
theorem handleHttpProxyResp_requires_18_bytes_witness :
    handleHttpProxyResp consW "dev1" [1, 2, 3] = RespAction.panic :=
  (handleHttpProxyResp_requires_18_bytes consW "dev1" [1, 2, 3]).1 (by decide)

/-- C1 (code bug): on the abort path where the session id is not in the
Session Registry, `doHttpProxy` has already stored the Endpoint Registry
entry (src/http.go lines 156-159) but returns without spawning the watcher
goroutine (line 178) — the only code that deletes the entry — so the entry
is never removed, regardless of which way the watcher race would have
gone. -/
theorem doHttpProxy_unknown_session_leaks_entry :
    runC1.registered = true ∧ runC1.watcherSpawned = false ∧
    runC1.frames = [] ∧
    connRemovals runC1 WatcherWake.cancelFired = 0 ∧
    connRemovals runC1 WatcherWake.normalExit = 0 :=
  ⟨rfl, rfl, rfl, rfl, rfl⟩

/-- C2 counterexample: the websocket run reads one chunk, hits EOF and
terminates (the exit channel is closed), having emitted no
zero-length-payload frame at all — the claim requires exactly one. -/
theorem doHttpProxy_ws_eof_emits_no_close_frame :
    runWsW.exitClosed = true ∧ runWsW.frames.length = 2 ∧
    (runWsW.frames.filter (fun f => f.payload.isEmpty)).length = 0 :=
  ⟨rfl, rfl, rfl⟩

/-- C3 (code bug): with the rtty-http-destaddr cookie absent the
destination defaults to "localhost", which fails IPv4 validation
(`genDestAddr` returns nil) — yet the handler does not abort: it registers
the connection and pushes a frame whose destination field is empty. -/
theorem doHttpProxy_invalid_dest_not_aborted :
    genDestAddr "localhost" = [] ∧ runNoDestW.registered = true ∧
    runNoDestW.frames ≠ [] ∧ runNoDestW.frames.map Frame.dst = [[]] :=
  ⟨rfl, rfl, by decide, rfl⟩

/-- C4 counterexample: the device's protocol version is 4 (> 3, scheme
flag supported), yet the raw-relay frame of the websocket run carries no
scheme-flag byte: its bytes are source ++ destination ++ payload and differ
from flag ++ source ++ destination ++ payload for either flag value. -/
theorem doHttpProxy_ws_raw_frame_lacks_flag :
    devW.proto > 3 ∧
    (runWsW.frames.getD 1 frameDflt).flag = none ∧
    (runWsW.frames.getD 1 frameDflt).bytes =
      tcpAddr2Bytes 4660 ipW ++ genDestAddr "10.0.0.2:8080" ++ [65] ∧
    (runWsW.frames.getD 1 frameDflt).bytes ≠
      0 :: (tcpAddr2Bytes 4660 ipW ++ genDestAddr "10.0.0.2:8080" ++ [65]) ∧
    (runWsW.frames.getD 1 frameDflt).bytes ≠
      1 :: (tcpAddr2Bytes 4660 ipW ++ genDestAddr "10.0.0.2:8080" ++ [65]) :=
  ⟨by decide, rfl, by decide, by decide, by decide⟩

/-- C6 counterexample: "::ffff:192.168.1.1" is an IPv6 literal (ParseIP
dispatches it to the IPv6 parser: the first separator is a colon), yet
destination validation accepts it, returning the mapped IPv4 address with
the default port 80. -/
theorem httpProxyVaildAddr_accepts_v4mapped_ipv6 :
    parseIPDispatch "::ffff:192.168.1.1".data = some false ∧
    httpProxyVaildAddr "::ffff:192.168.1.1" = some ([192, 168, 1, 1], 80) :=
  ⟨rfl, rfl⟩

/-- Inversion of a successful destination validation: the host ParseIPs to
some `v` whose `To4` is the returned address, and the port is the uint16
truncation of `Atoi` on the port string. -/
theorem httpProxyVaildAddr_inv {s : String} {ip : List Nat} {port : Nat}
    (h : httpProxyVaildAddr s = some (ip, port)) :
    ∃ v, ParseIP (hostOf s) = some v ∧ To4 v = some ip ∧
      port = uint16OfInt (atoiVal (portStrOf s)) := by
  unfold httpProxyVaildAddr at h
  cases hp : ParseIP (hostOf s) with
  | none => rw [hp] at h; cases h
  | some v =>
    rw [hp] at h
    simp only [] at h
    cases ht : To4 v with
    | none => rw [ht] at h; cases h
    | some ip4 =>
      rw [ht] at h
      simp only [] at h
      cases h
      exact ⟨v, rfl, ht, rfl⟩

/-- `genDestAddr` on a validated address, before simplification. -/
theorem genDestAddr_of_valid {s : String} {ip : List Nat} {port : Nat}
    (h : httpProxyVaildAddr s = some (ip, port)) :
    genDestAddr s = (List.range 4).map (fun i => ip.getD i 0) ++
      [port / 256 % 256, port % 256] := by
  unfold genDestAddr
  rw [h]

/-- C5: whenever destination validation succeeds, the computed Destination
Identifier is the 4 address bytes followed by the 2-byte big-endian port
(6 bytes in all); when the input has no colon (no explicit port), the port
defaults to 80; and at the spec's two examples the bytes are exactly as
stated. -/
theorem genDestAddr_format :
    (∀ s ip port, httpProxyVaildAddr s = some (ip, port) →
      ip.length = 4 ∧ port < 65536 ∧
      genDestAddr s = ip ++ [port / 256, port % 256] ∧
      (genDestAddr s).length = 6) ∧
    (∀ s ip port, ':' ∉ s.data →
      httpProxyVaildAddr s = some (ip, port) → port = 80) ∧
    genDestAddr "192.168.1.1:8080" = [0xC0, 0xA8, 0x01, 0x01, 0x1F, 0x90] ∧
    genDestAddr "192.168.1.1" = [0xC0, 0xA8, 0x01, 0x01, 0x00, 0x50] := by
  refine ⟨?_, ?_, by decide, by decide⟩
  · intro s ip port h
    obtain ⟨v, hp, ht, hpe⟩ := httpProxyVaildAddr_inv h
    have hip4 : ip.length = 4 := To4_length ht
    have hport : port < 65536 := by
      rw [hpe]
      exact uint16OfInt_lt _
    have hmap : (List.range 4).map (fun i => ip.getD i 0) = ip := by
      rw [← hip4]
      exact range_map_getD ip 0
    have hgen := genDestAddr_of_valid h
    rw [hmap] at hgen
    have hdiv : port / 256 < 256 := by omega
    rw [Nat.mod_eq_of_lt hdiv] at hgen
    refine ⟨hip4, hport, hgen, ?_⟩
    rw [hgen]
    simp [hip4]
  · intro s ip port hc h
    obtain ⟨v, hp, ht, hpe⟩ := httpProxyVaildAddr_inv h
    have hps : portStrOf s = "80" := by
      unfold portStrOf
      rw [splitHostPort_no_colon hc]
    rw [hps] at hpe
    rw [hpe]
    decide

/-- Witness for C5 at "10.0.0.2:8080". -/
theorem genDestAddr_format_witness :
    ([10, 0, 0, 2] : List Nat).length = 4 ∧ 8080 < 65536 ∧
    genDestAddr "10.0.0.2:8080" = [10, 0, 0, 2] ++ [8080 / 256, 8080 % 256] ∧
    (genDestAddr "10.0.0.2:8080").length = 6 :=
  genDestAddr_format.1 "10.0.0.2:8080" [10, 0, 0, 2] 8080 (by decide)

/-- C6 amended: destination validation succeeds only when the host part
ParseIPs to the 16-byte v4-mapped form of the returned 4-byte address, so
every non-numeric hostname and every IPv6 literal that is not IPv4-mapped
fails; the concrete negatives cover the claim's examples. -/
theorem httpProxyVaildAddr_only_v4_or_v4mapped :
    (∀ s ip port, httpProxyVaildAddr s = some (ip, port) →
      ParseIP (hostOf s) = some (v4InV6 ++ ip) ∧ ip.length = 4) ∧
    httpProxyVaildAddr "localhost" = none ∧
    httpProxyVaildAddr "example.com:8080" = none ∧
    httpProxyVaildAddr "::1" = none ∧
    httpProxyVaildAddr "[2001:db8::1]:80" = none ∧
    httpProxyVaildAddr "fe80::1" = none := by
  refine ⟨?_, by decide, by decide, by decide, by decide, by decide⟩
  intro s ip port h
  obtain ⟨v, hp, ht, hpe⟩ := httpProxyVaildAddr_inv h
  have h16 : v.length = 16 := ParseIP_length hp
  have hip : ip.length = 4 := To4_length ht
  refine ⟨?_, hip⟩
  unfold To4 at ht
  rw [if_neg (by omega)] at ht
  by_cases hcond : v.length = 16 ∧ v.take 12 = v4InV6
  · rw [if_pos hcond] at ht
    cases ht
    have hv : v = v4InV6 ++ v.drop 12 := by
      conv_lhs => rw [← List.take_append_drop 12 v]
      rw [hcond.2]
    rw [← hv]
    exact hp
  · rw [if_neg hcond] at ht
    cases ht

/-- Witness for the C6 amended theorem at "10.0.0.2:8080". -/
theorem httpProxyVaildAddr_only_v4_or_v4mapped_witness :
    ParseIP (hostOf "10.0.0.2:8080") = some (v4InV6 ++ [10, 0, 0, 2]) ∧
    ([10, 0, 0, 2] : List Nat).length = 4 :=
  httpProxyVaildAddr_only_v4_or_v4mapped.1 "10.0.0.2:8080" [10, 0, 0, 2] 8080
    (by decide)

/-- C9: when the second of two sequential successful redirects presents
the session cookie minted by the first, the handler fires the first
session's cancellation signal and removes it from the Session Registry
strictly before the second session is created and stored: the second
call's event trace is exactly fired(sid1), removed(sid1), created(sid2),
stored(sid2), and afterwards sid1 is no longer live while sid2 is. -/
theorem httpProxyRedirect_invalidate_order
    (cfg : RedirConfig) (devices : List (String × device))
    (devid proto addr pathPath pathRawQuery requestHost : String)
    (now1 now2 : Int) (sid1 sid2 : String) (s0 : List String)
    (va : List Nat × Nat) (dv : String × device)
    (haddr : httpProxyVaildAddr addr = some va)
    (hdev : devices.find? (fun p => p.1 = devid) = some dv)
    (hne : sid2 ≠ sid1) :
    (httpProxyRedirect cfg devices devid proto addr
        (some (pathPath, pathRawQuery)) requestHost now2 (some sid1) sid2
        (httpProxyRedirect cfg devices devid proto addr
          (some (pathPath, pathRawQuery)) requestHost now1 none sid1
          s0).sessions).events =
      [SessionEvent.fired sid1, SessionEvent.removed sid1,
       SessionEvent.created sid2, SessionEvent.stored sid2] ∧
    sid1 ∉ (httpProxyRedirect cfg devices devid proto addr
        (some (pathPath, pathRawQuery)) requestHost now2 (some sid1) sid2
        (httpProxyRedirect cfg devices devid proto addr
          (some (pathPath, pathRawQuery)) requestHost now1 none sid1
          s0).sessions).sessions ∧
    sid2 ∈ (httpProxyRedirect cfg devices devid proto addr
        (some (pathPath, pathRawQuery)) requestHost now2 (some sid1) sid2
        (httpProxyRedirect cfg devices devid proto addr
          (some (pathPath, pathRawQuery)) requestHost now1 none sid1
          s0).sessions).sessions := by
  have h1 : (httpProxyRedirect cfg devices devid proto addr
      (some (pathPath, pathRawQuery)) requestHost now1 none sid1 s0).sessions
      = sid1 :: s0 := by
    unfold httpProxyRedirect
    rw [if_neg (by simp [haddr])]
    simp only []
    rw [if_neg (by simp [hdev])]
    simp [sessionInvalidate]
  rw [h1]
  have hmem : sid1 ∈ sid1 :: s0 := List.mem_cons_self sid1 s0
  have h2 : (httpProxyRedirect cfg devices devid proto addr
        (some (pathPath, pathRawQuery)) requestHost now2 (some sid1) sid2
        (sid1 :: s0)).events =
      [SessionEvent.fired sid1, SessionEvent.removed sid1,
       SessionEvent.created sid2, SessionEvent.stored sid2] ∧
      (httpProxyRedirect cfg devices devid proto addr
        (some (pathPath, pathRawQuery)) requestHost now2 (some sid1) sid2
        (sid1 :: s0)).sessions =
      sid2 :: s0.filter (fun x => x ≠ sid1) := by
    unfold httpProxyRedirect
    rw [if_neg (by simp [haddr])]
    simp only []
    rw [if_neg (by simp [hdev])]
    constructor
    · simp [sessionInvalidate, hmem]
    · simp [sessionInvalidate, hmem]
  refine ⟨h2.1, ?_, ?_⟩
  · rw [h2.2]
    simp only [List.mem_cons, List.mem_filter, not_or]
    refine ⟨fun he => hne he.symm, fun hc => by simp at hc⟩
  · rw [h2.2]
    exact List.mem_cons_self sid2 _

/-- Witness for C9 at a concrete pair of redirect calls. -/
theorem httpProxyRedirect_invalidate_order_witness :
    redirW2.events =
      [SessionEvent.fired "s1", SessionEvent.removed "s1",
       SessionEvent.created "s2", SessionEvent.stored "s2"] ∧
    "s1" ∉ redirW2.sessions ∧ "s2" ∈ redirW2.sessions :=
  httpProxyRedirect_invalidate_order cfgW [("dev1", devW)] "dev1" "http"
    "10.0.0.2:8080" "/x" "" "broker.example:5913" 100 101 "s1" "s2" []
    ([10, 0, 0, 2], 8080) ("dev1", devW) (by decide) (by decide) (by decide)

/-- On the successful path (first request parsed, device known, session
live) `doHttpProxy` pushes exactly the frames of `specOutboundFrames`,
registers the connection, spawns the watcher and closes the exit channel. -/
theorem doHttpProxy_frames_eq (devices : List (String × device))
    (sessions : List String) (inp : ProxyConnInput) (req : ParsedRequest)
    (devid : String) (dev : device) (sid : String)
    (hfr : inp.firstReq = some req)
    (hdc : reqCookie req "rtty-http-devid" = some devid)
    (hdev : (devices.find? (fun p => p.1 = devid)).map (fun p => p.2) =
      some dev)
    (hsc : reqCookie req "rtty-http-sid" = some sid)
    (hmem : sid ∈ sessions) :
    doHttpProxy devices sessions inp =
      ⟨specOutboundFrames inp req devid dev, true, true, true⟩ := by
  simp only [doHttpProxy, specOutboundFrames, hfr, hdc, hdev, hsc, hmem,
    if_true]
  by_cases hup : req.upgrade = "websocket" <;> simp [hup]

/-- C2 amended: the handler emits no zero-length-payload frame on loop
termination — with every read chunk and every serialization chunk
non-empty (Go `Read` returns at least one byte on success and request
serializations are non-empty), every frame a run ever pushes has a
non-empty payload — and whenever a relay loop ran (the watcher was
spawned), termination closes the exit channel rather than signalling the
device side. -/
theorem doHttpProxy_no_close_frame (devices : List (String × device))
    (sessions : List String) (inp : ProxyConnInput)
    (h1 : ∀ c ∈ inp.rawChunks, c ≠ [])
    (h2 : ∀ c ∈ (inp.firstReq.map ParsedRequest.serialized).getD [], c ≠ [])
    (h3 : ∀ r ∈ inp.moreReqs, ∀ c ∈ r.serialized, c ≠ []) :
    (∀ f ∈ (doHttpProxy devices sessions inp).frames, f.payload ≠ []) ∧
    ((doHttpProxy devices sessions inp).watcherSpawned = true →
      (doHttpProxy devices sessions inp).exitClosed = true) := by
  cases hfr : inp.firstReq with
  | none => simp [doHttpProxy, hfr]
  | some req =>
    rw [hfr] at h2
    simp only [Option.map_some', Option.getD_some] at h2
    cases hdc : reqCookie req "rtty-http-devid" with
    | none => simp [doHttpProxy, hfr, hdc]
    | some devid =>
      cases hdev : (devices.find? (fun p => p.1 = devid)).map (fun p => p.2)
        with
      | none => simp [doHttpProxy, hfr, hdc, hdev]
      | some dev =>
        cases hsc : reqCookie req "rtty-http-sid" with
        | none => simp [doHttpProxy, hfr, hdc, hdev, hsc]
        | some sid =>
          by_cases hmem : sid ∈ sessions
          · rw [doHttpProxy_frames_eq devices sessions inp req devid dev sid
              hfr hdc hdev hsc hmem]
            refine ⟨?_, fun _ => rfl⟩
            intro f hf
            simp only [specOutboundFrames, HttpProxyWriter.WriteRequest,
              List.mem_append, List.mem_map] at hf
            rcases hf with ⟨c, hc, rfl⟩ | hf2
            · simpa [HttpProxyWriter.Write] using h2 c hc
            · split at hf2
              · simp only [List.mem_map] at hf2
                obtain ⟨b, hb, rfl⟩ := hf2
                simpa using h1 b hb
              · simp only [List.mem_flatMap, HttpProxyWriter.WriteRequest,
                  List.mem_map] at hf2
                obtain ⟨r, hr, c, hc, rfl⟩ := hf2
                simpa [HttpProxyWriter.Write] using h3 r hr c hc
          · simp [doHttpProxy, hfr, hdc, hdev, hsc, hmem]

/-- Witness for the C2 amended theorem: the first frame of the websocket
run has a non-empty payload. -/
theorem doHttpProxy_no_close_frame_witness :
    (runWsW.frames.getD 0 frameDflt).payload ≠ [] :=
  (doHttpProxy_no_close_frame [("dev1", devW)] ["s1"] inpWsW (by decide)
    (by decide) (by decide)).1 (runWsW.frames.getD 0 frameDflt) (by decide)

/-- C4 amended: on the successful path the pushed frames are exactly
`specOutboundFrames`: frames produced by serializing HTTP requests carry
the scheme-flag byte exactly when the device's protocol version is above 3
(1 for an https destination, 0 for http) followed by the source address,
the destination address and the payload; but the raw-relay frames of
upgrade mode never carry the flag — their bytes are source address ++
destination address ++ payload even when the protocol version supports the
flag. -/
theorem doHttpProxy_frame_layout (devices : List (String × device))
    (sessions : List String) (inp : ProxyConnInput) (req : ParsedRequest)
    (devid : String) (dev : device) (sid : String)
    (hfr : inp.firstReq = some req)
    (hdc : reqCookie req "rtty-http-devid" = some devid)
    (hdev : (devices.find? (fun p => p.1 = devid)).map (fun p => p.2) =
      some dev)
    (hsc : reqCookie req "rtty-http-sid" = some sid)
    (hmem : sid ∈ sessions) :
    (doHttpProxy devices sessions inp).frames =
      specOutboundFrames inp req devid dev ∧
    (∀ p : List Nat,
      (HttpProxyWriter.Write
        ⟨genDestAddr (reqHostRewrite req),
         tcpAddr2Bytes inp.remotePort inp.remoteIP, reqHostRewrite req, dev,
         reqHttps req⟩ p).bytes =
        (if dev.proto > 3 then [if reqHttps req then 1 else 0] else []) ++
          tcpAddr2Bytes inp.remotePort inp.remoteIP ++
          genDestAddr (reqHostRewrite req) ++ p) ∧
    (req.upgrade = "websocket" →
      ∀ f ∈ ((doHttpProxy devices sessions inp).frames).drop
          req.serialized.length,
        f.flag = none ∧
        f.bytes = tcpAddr2Bytes inp.remotePort inp.remoteIP ++
          genDestAddr (reqHostRewrite req) ++ f.payload) := by
  have he := doHttpProxy_frames_eq devices sessions inp req devid dev sid
    hfr hdc hdev hsc hmem
  have hfe : (doHttpProxy devices sessions inp).frames =
      specOutboundFrames inp req devid dev := by rw [he]
  refine ⟨hfe, ?_, ?_⟩
  · intro p
    by_cases hproto : dev.proto > 3 <;>
      simp [HttpProxyWriter.Write, Frame.bytes, hproto]
  · intro hup f hf
    rw [hfe] at hf
    simp only [specOutboundFrames, HttpProxyWriter.WriteRequest, hup,
      if_true] at hf
    rw [List.drop_left' (by simp)] at hf
    simp only [List.mem_map] at hf
    obtain ⟨b, hb, rfl⟩ := hf
    exact ⟨rfl, by simp [Frame.bytes]⟩

/-- Witness for the C4 amended theorem at the concrete websocket run. -/
theorem doHttpProxy_frame_layout_witness :
    runWsW.frames = specOutboundFrames inpWsW reqWsW "dev1" devW :=
  (doHttpProxy_frame_layout [("dev1", devW)] ["s1"] inpWsW reqWsW "dev1"
    devW "s1" (by decide) (by decide) (by decide) (by decide) (by decide)).1
